import Mathlib

/-!
Verification of the cvmap SVG-annotation tool (src/cvmap.py) against its
natural-language specification.

The program is embedded shallowly:

* The `xml.etree.ElementTree` document tree becomes the inductive type `XML`
  (qualified tag, ordered attribute list, optional direct text, optional tail
  text, ordered children).  ElementTree qualified names are strings of the
  form `{uri}local`; the braces are written with `\x7b`/`\x7d` escapes.
* Python dicts that are only read through key lookup (`Element.attrib`,
  the `text_info_map` of `modify_text_tags`) become association lists with
  first-match lookup (`dict_get`) and replace-or-append update (`dict_set`),
  which is exactly the observable behaviour of a Python dict here.
* TOML records become the structure `Record`.  `tomli` never produces `None`
  for a string-valued field, so the `row["element"] is not None` guard of
  `merge_file_data` is vacuous and the fields are plain strings (a missing
  optional field reads as `""`, which is observationally identical to
  Python's `None` under the truthiness tests the program performs).
* `float` arithmetic of `add_explanation_text` only ever touches exact
  multiples of `0.1`, so it is modelled exactly in fixed-point tenths over
  `Int` (with a `ℚ` bridge for stating formulas); on the concrete values
  exercised by the claims, Python's binary-float computation produces
  exactly the corresponding printed results
  (`str(400 + 12*1.2 + 20) == "434.4"`, first-line y `400.0`).
* Functions that can abort (`sys.exit`) or raise return `Except String`.
-/

/-! ## Namespace constants (src/cvmap.py lines 39-42) -/

def SVG_NAMESPACE_URI : String := "http://www.w3.org/2000/svg"

def XLINK_NAMESPACE_URI : String := "http://www.w3.org/1999/xlink"

/-- ElementTree qualified name `{svg-ns}svg`. -/
def svg_svg_tag : String := "\x7bhttp://www.w3.org/2000/svg\x7dsvg"

/-- ElementTree qualified name `{svg-ns}g`. -/
def svg_g_tag : String := "\x7bhttp://www.w3.org/2000/svg\x7dg"

/-- ElementTree qualified name `{svg-ns}text`. -/
def svg_text_tag : String := "\x7bhttp://www.w3.org/2000/svg\x7dtext"

/-- ElementTree qualified name `{svg-ns}tspan`. -/
def svg_tspan_tag : String := "\x7bhttp://www.w3.org/2000/svg\x7dtspan"

/-- ElementTree qualified name `{svg-ns}a` (used by `add_explanation_text`;
`modify_text_tags` creates its `<a>` wrapper with the unqualified tag `a`). -/
def svg_a_tag : String := "\x7bhttp://www.w3.org/2000/svg\x7da"

/-- ElementTree qualified name `{xlink-ns}href`. -/
def xlink_href_attr : String := "\x7bhttp://www.w3.org/1999/xlink\x7dhref"

/-! ## The document tree (ElementTree model, spec section 3) -/

/-- An ElementTree element: qualified tag, ordered attributes, optional direct
text, optional tail text, ordered children. -/
inductive XML where
  | elem (tag : String) (attrib : List (String × String)) (text : Option String)
      (tail : Option String) (children : List XML)

def XML.tag : XML → String
  | .elem t _ _ _ _ => t

def XML.attrib : XML → List (String × String)
  | .elem _ a _ _ _ => a

def XML.text : XML → Option String
  | .elem _ _ tx _ _ => tx

def XML.tail : XML → Option String
  | .elem _ _ _ tl _ => tl

def XML.children : XML → List XML
  | .elem _ _ _ _ cs => cs

mutual

def XML.eqDec : (x y : XML) → Decidable (x = y)
  | .elem t a tx tl cs, .elem t2 a2 tx2 tl2 cs2 =>
    match decEq t t2, decEq a a2, decEq tx tx2, decEq tl tl2 with
    | isTrue h1, isTrue h2, isTrue h3, isTrue h4 =>
      match XML.eqDecList cs cs2 with
      | isTrue h5 => isTrue (by rw [h1, h2, h3, h4, h5])
      | isFalse h5 => isFalse (by intro hh; injection hh; contradiction)
    | isFalse h1, _, _, _ => isFalse (by intro hh; injection hh; contradiction)
    | _, isFalse h2, _, _ => isFalse (by intro hh; injection hh; contradiction)
    | _, _, isFalse h3, _ => isFalse (by intro hh; injection hh; contradiction)
    | _, _, _, isFalse h4 => isFalse (by intro hh; injection hh; contradiction)

def XML.eqDecList : (l l2 : List XML) → Decidable (l = l2)
  | [], [] => isTrue rfl
  | [], _ :: _ => isFalse (by intro hh; injection hh)
  | _ :: _, [] => isFalse (by intro hh; injection hh)
  | c :: r, c2 :: r2 =>
    match XML.eqDec c c2, XML.eqDecList r r2 with
    | isTrue h1, isTrue h2 => isTrue (by rw [h1, h2])
    | isFalse h1, _ => isFalse (by intro hh; injection hh; contradiction)
    | _, isFalse h2 => isFalse (by intro hh; injection hh; contradiction)

end

instance : DecidableEq XML := XML.eqDec

/- All elements of a tree in document (preorder) order; this is the
iteration order of ElementTree's `root.iter()`, which yields the root first. -/
mutual

def XML.nodes : XML → List XML
  | .elem t a tx tl cs => .elem t a tx tl cs :: nodesList cs

def nodesList : List XML → List XML
  | [] => []
  | c :: rest => XML.nodes c ++ nodesList rest

end

/-- All proper descendants of `root` in document order; this is what
`root.findall(".//tag")` searches (the root itself is excluded). -/
def XML.descendants (root : XML) : List XML := nodesList root.children

/-! ## Python-dict model -/

/-- Lookup in an association list, first match wins: the observable behaviour
of `d[k]` / `d.get(k)` on a Python dict (a dict holds each key once). -/
def dict_get {α : Type} : List (String × α) → String → Option α
  | [], _ => none
  | (k, v) :: rest, key => if k = key then some v else dict_get rest key

/-- Replace-or-append update: the observable behaviour of `d[k] = v` on a
Python dict (existing key keeps its position, new key is appended). -/
def dict_set {α : Type} : List (String × α) → String → α → List (String × α)
  | [], key, val => [(key, val)]
  | (k, v) :: rest, key, val =>
    if k = key then (key, val) :: rest else (k, v) :: dict_set rest key val

/-- `elem.get(k)` / `elem.attrib[k]` on an element's attributes. -/
def xml_get (e : XML) (key : String) : Option String := dict_get e.attrib key

def instExceptDecEq {ε α : Type} [DecidableEq ε] [DecidableEq α] :
    (x y : Except ε α) → Decidable (x = y)
  | .error e, .error f =>
    match decEq e f with
    | isTrue h => isTrue (h ▸ rfl)
    | isFalse h => isFalse (fun hh => h (Except.error.inj hh))
  | .error _, .ok _ => isFalse (fun hh => Except.noConfusion hh)
  | .ok _, .error _ => isFalse (fun hh => Except.noConfusion hh)
  | .ok a, .ok b =>
    match decEq a b with
    | isTrue h => isTrue (h ▸ rfl)
    | isFalse h => isFalse (fun hh => h (Except.ok.inj hh))

instance {ε α : Type} [DecidableEq ε] [DecidableEq α] : DecidableEq (Except ε α) :=
  instExceptDecEq

/-! ## Python string helpers -/

/-- `str.strip()`: remove leading and trailing whitespace (ASCII whitespace;
Python additionally strips the rare non-ASCII Unicode spaces, which none of
the claims involve). -/
def pyStrip (s : String) : String :=
  ⟨((s.data.dropWhile Char.isWhitespace).reverse.dropWhile Char.isWhitespace).reverse⟩

def digitsToNat : List Char → Option Nat
  | [] => none
  | l => l.foldl
      (fun acc c => match acc with
        | none => none
        | some n => if c.isDigit then some (n * 10 + (c.toNat - 48)) else none)
      (some 0)

/-- `int(s)`: optional surrounding whitespace, optional sign, decimal digits;
anything else raises `ValueError`, modelled as `none` (Python's underscore
digit separators are not modelled; no claim involves them). -/
def pyInt (s : String) : Option Int :=
  match (pyStrip s).data with
  | '-' :: rest => (digitsToNat rest).map (fun n => -(n : Int))
  | '+' :: rest => (digitsToNat rest).map (fun n => (n : Int))
  | l => (digitsToNat l).map (fun n => (n : Int))

/-! ## Annotation records (spec section 3; `fieldnames`, line 38) -/

/-- One annotation record `{element, balloon, link}`.  All fields are strings:
`tomli` yields strings for these keys and the program's truthiness tests make
a missing field behave exactly like `""`. -/
structure Record where
  element : String
  balloon : String
  link : String
deriving DecidableEq, Repr

/-! ## Document Loader: label extraction (`ReadSVG`, lines 46-79)

`ReadSVG` collects `root.findall(".//{svg}text")` in document order and, for
each found element whose `.text` is truthy (present and non-empty), appends
`text.strip()` to the element list; falsy-text elements are skipped with a
diagnostic.  `pyStrip` models Python's `str.strip()`. -/

def findall_text (root : XML) : List XML :=
  root.descendants.filter (fun e => e.tag == svg_text_tag)

def ReadSVG_element_list (root : XML) : List String :=
  (findall_text root).filterMap (fun e =>
    match e.text with
    | some s => if s = "" then none else some (pyStrip s)
    | none => none)

/-! ## Annotation Store: `read_toml_data` (lines 81-113)

The filesystem is abstracted as a map from path to the state the function
observes: the file may be absent (`os.path.exists` false), unreadable or
unparsable (`open`/`tomli.load` raises, caught and followed by `sys.exit`),
or parsed, in which case the `item` key either holds a list of records or is
missing/not a list. -/

inductive TomlFileState where
  | absent
  | unreadable
  | parsed (item : Option (List Record))

def read_toml_data (fs : String → TomlFileState) (filename_toml : String) :
    Except String (List Record) :=
  match fs filename_toml with
  | .absent => .ok []
  | .unreadable => .error "sys.exit"
  | .parsed none => .ok []
  | .parsed (some items) => .ok items

/-! ## Reconciler: `merge_file_data` (lines 142-178)

The first loop keeps, in order, exactly the rows whose `element` occurs in
`element_list` (the `is not None` guard is vacuous for string fields) and
records each kept key in `processed_elements`; since keys are added exactly
when a row is appended, the final set equals the kept rows' keys.  The second
loop appends, in `element_list` order, a fresh record for every label not in
that set. -/

/-- The first loop (lines 164-172): the rows kept in `data2write`, whose
`element` keys are exactly the final contents of `processed_elements`. -/
def merge_kept (data_fromtoml : List Record) (element_list : List String) :
    List Record :=
  data_fromtoml.filter (fun row => decide (row.element ∈ element_list))

/-- The second loop (lines 174-176): a fresh record for every label not in
`processed_elements`, in `element_list` order. -/
def merge_new (data_fromtoml : List Record) (element_list : List String) :
    List Record :=
  (element_list.filter (fun e =>
      decide (e ∉ (merge_kept data_fromtoml element_list).map Record.element))).map
    (fun e => { element := e, balloon := "", link := "" })

def merge_file_data (data_fromtoml : List Record) (element_list : List String) :
    List Record :=
  merge_kept data_fromtoml element_list ++ merge_new data_fromtoml element_list

/-- The result shape stated by the spec (section 4.3 / claim C1): the kept
existing records in their original order, followed by one fresh record for
each current label, in document order, whose key no kept record carries. -/
def merge_claim_shape (data_fromtoml : List Record) (element_list : List String) :
    List Record :=
  merge_kept data_fromtoml element_list ++
    (element_list.filter (fun e =>
        (merge_kept data_fromtoml element_list).all
          (fun row => decide (row.element ≠ e)))).map
      (fun e => { element := e, balloon := "", link := "" })

/-! ## Tree Rewriter: `modify_text_tags` (lines 180-291)

The map-building loop (lines 205-217): a record contributes an entry keyed by
its `element` when `element` is truthy and `balloon` or `link` is truthy; a
later record with the same key overwrites the earlier entry (Python dict). -/

def build_step (m : List (String × String × String)) (entry : Record) :
    List (String × String × String) :=
  if entry.element ≠ "" ∧ (entry.balloon ≠ "" ∨ entry.link ≠ "") then
    dict_set m entry.element (entry.balloon, entry.link)
  else m

def build_text_info_map (data2write : List Record) :
    List (String × String × String) :=
  data2write.foldl build_step []

/-- Lines 248-251: `child.find('title')` finds the first direct child with
the unqualified tag `title` and, if present, it is removed. -/
def remove_first_title : List XML → List XML
  | [] => []
  | c :: rest => if c.tag = "title" then rest else c :: remove_first_title rest

/-- Lines 259-262: the `<title>` balloon element (unqualified tag), carrying
the balloon text as its own text and the original text as its tail. -/
def mk_title (balloon : String) (original_text : Option String) : XML :=
  .elem "title" [] (some balloon) original_text []

/-- Lines 276-285: the `<a>` wrapper (unqualified tag) with the namespaced
href attribute and `target="_blank"`, holding the text element as its only
child (the wrapped element keeps its own tail). -/
def mk_a_wrap (link_url : String) (child : XML) : XML :=
  .elem "a" [(xlink_href_attr, link_url), ("target", "_blank")] none none [child]

/-- The per-child rewrite of lines 229-288, not yet including the traversal's
descent into the (rewritten) subtree: a `<text>` child with truthy text whose
text is a key of the map gets its first unqualified `title` child removed,
a balloon `<title>` prepended (moving the direct text to the title's tail)
when the balloon is non-empty (otherwise the direct text is restored), and is
wrapped in an `<a>` element at its original index when the link is non-empty.
Any other child is left as it is. -/
def rewrite_child (m : List (String × String × String)) (child : XML) : XML :=
  if child.tag = svg_text_tag then
    match child.text with
    | some txt =>
      if txt = "" then child
      else
        match dict_get m txt with
        | some (balloon, link) =>
          if balloon ≠ "" ∨ link ≠ "" then
            let cleaned := remove_first_title child.children
            let inner : XML :=
              if balloon ≠ "" then
                .elem child.tag child.attrib none child.tail
                  (mk_title balloon child.text :: cleaned)
              else .elem child.tag child.attrib child.text child.tail cleaned
            if link ≠ "" then mk_a_wrap link inner else inner
          else child
        | none => child
    | none => child
  else child

/- The traversal (lines 219-291).  Python iterates `root_element.iter()`
lazily over the mutating tree: every element of the tree is yielded in
document order, and when the yielded element's own tag is `{svg}svg` or
`{svg}g` (no condition on its ancestors), its direct children are rewritten
over a snapshot of the child list before the iterator descends into the
(now rewritten) children.  Because a link-wrap keeps the child-list length
and position (remove + insert at the same index) and a balloon only mutates
the child itself, the lazy mutating iteration is equivalent to the recursive
traversal below: rewrite the children of an svg/g element, then recurse into
the rewritten children; elements with other tags only recurse.

`modify_child` fuses `rewrite_child` with the subsequent descent so that the
recursion stays structural.  Two facts justify the fusion against the Python
order of operations: the freshly built `title` element has no children and a
non-svg/g tag, so the descent leaves it unchanged; and the traversal of the
pre-existing children commutes with removing the first `title` child because
the descent never changes an element's tag (`remove_title_modify_comm`
below re-establishes the Python order). -/
mutual

def modify_node (m : List (String × String × String)) : XML → XML
  | .elem t a tx tl cs =>
    .elem t a tx tl
      (if t = svg_svg_tag ∨ t = svg_g_tag then modify_children m cs
       else modify_list m cs)

def modify_list (m : List (String × String × String)) : List XML → List XML
  | [] => []
  | c :: rest => modify_node m c :: modify_list m rest

def modify_children (m : List (String × String × String)) : List XML → List XML
  | [] => []
  | c :: rest => modify_child m c :: modify_children m rest

def modify_child (m : List (String × String × String)) : XML → XML
  | .elem t a tx tl cs =>
    if t = svg_text_tag then
      match tx with
      | some txt =>
        if txt = "" then .elem t a tx tl (modify_list m cs)
        else
          match dict_get m txt with
          | some (balloon, link) =>
            if balloon ≠ "" ∨ link ≠ "" then
              let cleaned := remove_first_title (modify_list m cs)
              let inner : XML :=
                if balloon ≠ "" then
                  .elem t a none tl (mk_title balloon (some txt) :: cleaned)
                else .elem t a (some txt) tl cleaned
              if link ≠ "" then mk_a_wrap link inner else inner
            else .elem t a tx tl (modify_list m cs)
          | none => .elem t a tx tl (modify_list m cs)
      | none => .elem t a tx tl (modify_list m cs)
    else
      .elem t a tx tl
        (if t = svg_svg_tag ∨ t = svg_g_tag then modify_children m cs
         else modify_list m cs)

end

/-- `modify_text_tags` (lines 196-291): nothing happens when `data2write` is
empty (line 199); otherwise the lookup map is built and the traversal runs
from the root. -/
def modify_text_tags (root_element : XML) (data2write : List Record) : XML :=
  if data2write.isEmpty then root_element
  else modify_node (build_text_info_map data2write) root_element

/-! ## Style Resolver: `get_parent` and `get_inherited_fill_color` (lines 293-368)

`get_parent` (lines 293-315) re-scans the whole tree in document order and
returns the first element having the child among its direct children (the
Python `elem is child` identity test becomes structural equality here, which
coincides with identity as long as the tree has no duplicated subtree).

`get_inherited_fill_color` walks from the first `{svg}text` element (in
`root.iter()` order, so the root itself is a candidate) up to the root.  At
each level it first tests `'style' in elem.attrib` — and on a hit the code
executes `elem.attrib('style')`, which calls the attribute dict and raises
`TypeError`, so a style attribute anywhere on the chain aborts the function
(and were that fixed, `elem.group(1)` would raise `AttributeError` next);
otherwise a direct `fill` attribute is returned verbatim, and the default
colour `#000000` is returned when the walk ends without a hit (or when there
is no text element at all). -/

def default_color : String := "#000000"

def get_parent (root child : XML) : Option XML :=
  root.nodes.find? (fun parent => parent.children.contains child)

/-- The upward chain of lines 341-349: collect the current element, stop
after the root, otherwise step to `get_parent` (stopping when it yields
nothing).  Each step moves to a strictly larger subtree, so the chain length
is bounded by the number of nodes; the fuel makes the recursion structural
and is always sufficient at `root.nodes.length + 1`. -/
def element_path_aux (root : XML) : Nat → XML → List XML
  | 0, _ => []
  | fuel + 1, current =>
    current ::
      (if current = root then []
       else
         match get_parent root current with
         | none => []
         | some parent => element_path_aux root fuel parent)

def element_path (root first_text : XML) : List XML :=
  element_path_aux root (root.nodes.length + 1) first_text

/-- The level-by-level loop of lines 353-365, including the crash of the
style branch (`elem.attrib('style')` calls a dict: `TypeError`). -/
def fill_walk : List XML → Except String String
  | [] => .ok default_color
  | e :: rest =>
    if (e.attrib.map Prod.fst).contains "style" then
      .error "TypeError: dict object is not callable"
    else
      match xml_get e "fill" with
      | some v => .ok v
      | none => fill_walk rest

def get_inherited_fill_color (root_element : XML) : Except String String :=
  match root_element.nodes.find? (fun e => e.tag == svg_text_tag) with
  | none => .ok default_color
  | some first_text => fill_walk (element_path root_element first_text)


/-! ## Explanatory-Text Layout: `add_explanation_text` (lines 370-489)

Every number this function manipulates is an exact multiple of `0.1`
(`text_height_em = 1.2`, integer font size, integer offsets, an integer
parsed height), so the arithmetic is modelled exactly in fixed-point tenths:
an `Int` value `v` stands for the real number `v / 10`.  `tenthsToRat` maps
into `ℚ` for stating the spec's formulas.  `tenthsStr` renders a
non-negative tenths value the way Python's `str()` prints the corresponding
float: with one decimal digit, or a trailing `.0` for integral values — on
the concrete values of the claims the binary-float computation of the code
yields exactly these shortest representations (for example
`str(400 + 1*(12*1.2) + 20) == "434.4"` and the first-line y prints
`"400.0"`). -/

def tenthsToRat (v : Int) : ℚ := (v : ℚ) / 10

/-- Python `str()` of the float a (non-negative) tenths value stands for. -/
def tenthsStr (v : Int) : String :=
  if v % 10 = 0 then toString (v / 10) ++ ".0"
  else toString (v / 10) ++ "." ++ toString (v % 10)

/-- `text_height_em = 1.2` (line 421), in tenths. -/
def text_height_em_tenths : Int := 12

/-- `line_spacing_px = font_size * text_height_em` (line 426), in tenths. -/
def line_spacing_tenths (font_size : Int) : Int := font_size * text_height_em_tenths

/-- `num_lines` (lines 422-425): one extra line when a link caption is
requested. -/
def caption_num_lines (explanation_text : List String)
    (additional_link : Option (String × String)) : Nat :=
  explanation_text.length + (if additional_link.isSome then 1 else 0)

/-- Line 428: `svg_height += num_lines*line_spacing_px + position_offset[1]`,
in tenths. -/
def caption_new_height (svg_height : Int) (num_lines : Nat) (font_size : Int)
    (offset_y : Int) : Int :=
  svg_height * 10 + (num_lines : Int) * line_spacing_tenths font_size + offset_y * 10

/-- Line 431: `text_y_firstline = svg_height - position_offset[1]
- num_lines*line_spacing_px` where `svg_height` is already the new height,
in tenths. -/
def caption_y_firstline (svg_height : Int) (num_lines : Nat) (font_size : Int)
    (offset_y : Int) : Int :=
  caption_new_height svg_height num_lines font_size offset_y - offset_y * 10 -
    (num_lines : Int) * line_spacing_tenths font_size

/-- `root_element.set('height', ...)` (line 429). -/
def set_height (root_element : XML) (v : String) : XML :=
  match root_element with
  | .elem t a tx tl cs => .elem t (dict_set a "height" v) tx tl cs

/-- The `tspan` lines (lines 448-460): each line becomes a `{svg}tspan` child
with `x` at the offset and `dy` equal to `"0em"` for the first line and
`str(1.2)` for the later ones. -/
def caption_tspans (text_x_coord : String) : Nat → List String → List XML
  | _, [] => []
  | i, line :: rest =>
    .elem svg_tspan_tag
        [("x", text_x_coord),
         ("dy", if i = 0 then "0em" else tenthsStr text_height_em_tenths)]
        (some line) none [] ::
      caption_tspans text_x_coord (i + 1) rest

/-- `add_explanation_text` (lines 398-489).  The height attribute is parsed
as an int with a default of 400 (also on a parse failure), the new height is
written back, the fill colour is resolved on the (height-updated) tree —
propagating the style-branch crash of `get_inherited_fill_color` —, the
caption text element is appended, and the optional link caption is appended
after it at the last caption line's vertical slot.  `additional_link` is
typed as an optional pair of strings, so the malformed-argument diagnostic
branch of lines 464-465 has no counterpart here. -/
def add_explanation_text (root_element : XML) (explanation_text : List String)
    (position_offset : Int × Int) (font_size : Int)
    (additional_link : Option (String × String)) : Except String XML :=
  let svg_height : Int :=
    match pyInt ((xml_get root_element "height").getD "400") with
    | some n => n
    | none => 400
  let text_x_coord : String := toString position_offset.1
  let num_lines : Nat := caption_num_lines explanation_text additional_link
  let new_height : Int :=
    caption_new_height svg_height num_lines font_size position_offset.2
  let root1 : XML := set_height root_element (tenthsStr new_height)
  let text_y_firstline : Int :=
    caption_y_firstline svg_height num_lines font_size position_offset.2
  match get_inherited_fill_color root1 with
  | .error e => .error e
  | .ok fill_color =>
    let explanation_text_elem : XML :=
      .elem svg_text_tag
        [("x", text_x_coord), ("y", tenthsStr text_y_firstline),
         ("font-size", toString font_size), ("fill", fill_color),
         ("font-family", "Arial, sans-serif"), ("stroke", "none"),
         ("stroke-width", "0")]
        none none (caption_tspans text_x_coord 0 explanation_text)
    let root2 : XML :=
      .elem root1.tag root1.attrib root1.text root1.tail
        (root1.children ++ [explanation_text_elem])
    match additional_link with
    | none => .ok root2
    | some (url, display_text) =>
      let link_y_pos : Int :=
        text_y_firstline + ((num_lines : Int) - 1) * line_spacing_tenths font_size
      let a_element : XML :=
        .elem svg_a_tag [(xlink_href_attr, url), ("target", "_blank")] none none
          [.elem svg_text_tag
            [("x", text_x_coord), ("y", tenthsStr link_y_pos),
             ("font-size", toString font_size), ("fill", fill_color),
             ("font-family", "Arial, sans-serif"), ("stroke", "none"),
             ("stroke-width", "0")]
            (some display_text) none []]
      .ok (.elem root2.tag root2.attrib root2.text root2.tail
        (root2.children ++ [a_element]))

/-! ## Predicates used by the claim statements -/

/- No element of the subtree is tagged `{svg}svg` or `{svg}g`; the rewriting
traversal is the identity on such subtrees. -/
mutual

def no_svg_g : XML → Bool
  | .elem t _ _ _ cs => !(t = svg_svg_tag || t = svg_g_tag) && no_svg_g_list cs

def no_svg_g_list : List XML → Bool
  | [] => true
  | c :: rest => no_svg_g c && no_svg_g_list rest

end

/-- `s` is the direct text of some `{svg}text` element of the tree. -/
def is_text_content (t : XML) (s : String) : Prop :=
  ∃ e ∈ XML.nodes t, e.tag = svg_text_tag ∧ e.text = some s

/-- The direct-text condition under which the traversal rewrites nothing:
no `{svg}text` element of the subtree carries truthy direct text that is a
key of the lookup map. -/
def NoHit (m : List (String × String × String)) (e : XML) : Prop :=
  e.tag = svg_text_tag → ∀ s, e.text = some s → s ≠ "" → dict_get m s = none

/-! # Theorems

General lemmas about the embedded definitions first; the claim theorems,
their witnesses and the counterexamples come at the end. -/

theorem dict_get_set_self {α : Type} (m : List (String × α)) (k : String) (v : α) :
    dict_get (dict_set m k v) k = some v := by
  induction m with
  | nil => simp [dict_set, dict_get]
  | cons kv rest ih =>
    obtain ⟨k1, v1⟩ := kv
    by_cases h : k1 = k
    · simp [dict_set, h, dict_get]
    · simp [dict_set, h, dict_get, ih]

theorem dict_get_set_ne {α : Type} (m : List (String × α)) (k k2 : String) (v : α)
    (h : k2 ≠ k) : dict_get (dict_set m k v) k2 = dict_get m k2 := by
  induction m with
  | nil => simp [dict_set, dict_get, Ne.symm h]
  | cons kv rest ih =>
    obtain ⟨k1, v1⟩ := kv
    by_cases h1 : k1 = k
    · subst h1
      simp [dict_set, dict_get, Ne.symm h]
    · simp [dict_set, h1, dict_get, ih]

theorem dict_get_foldl_build_unique (R : List Record)
    (m0 : List (String × String × String)) (r0 : Record)
    (hc : r0.element ≠ "" ∧ (r0.balloon ≠ "" ∨ r0.link ≠ ""))
    (hu : ∀ r ∈ R, r.element = r0.element → r = r0) :
    dict_get (R.foldl build_step m0) r0.element =
      if r0 ∈ R then some (r0.balloon, r0.link) else dict_get m0 r0.element := by
  induction R generalizing m0 with
  | nil => simp
  | cons r rest ih =>
    have hu2 : ∀ x ∈ rest, x.element = r0.element → x = r0 :=
      fun x hx => hu x (List.mem_cons_of_mem _ hx)
    by_cases he : r.element = r0.element
    · have hr : r = r0 := hu r (List.mem_cons_self _ _) he
      subst hr
      rw [List.foldl_cons, ih _ hu2]
      have hstep : build_step m0 r = dict_set m0 r.element (r.balloon, r.link) := by
        simp [build_step, hc.1, hc.2]
      by_cases hm : r ∈ rest
      · simp [hm]
      · simp [hm, hstep, dict_get_set_self]
    · have hr : r ≠ r0 := fun hh => he (by rw [hh])
      rw [List.foldl_cons, ih _ hu2]
      have hget : dict_get (build_step m0 r) r0.element = dict_get m0 r0.element := by
        unfold build_step
        split
        · exact dict_get_set_ne _ _ _ _ (Ne.symm he)
        · rfl
      rw [hget]
      have hne : r0 ≠ r := fun hh => hr hh.symm
      simp [List.mem_cons, hne]

theorem dict_get_build_unique (R : List Record) (r0 : Record) (hmem : r0 ∈ R)
    (hc : r0.element ≠ "" ∧ (r0.balloon ≠ "" ∨ r0.link ≠ ""))
    (hu : ∀ r ∈ R, r.element = r0.element → r = r0) :
    dict_get (build_text_info_map R) r0.element = some (r0.balloon, r0.link) := by
  rw [build_text_info_map, dict_get_foldl_build_unique R [] r0 hc hu, if_pos hmem]

theorem dict_get_foldl_build_some (R : List Record)
    (m0 : List (String × String × String)) (k : String) (v : String × String)
    (h : dict_get (R.foldl build_step m0) k = some v) :
    (∃ r ∈ R, r.element = k ∧ (r.balloon ≠ "" ∨ r.link ≠ "")) ∨
      dict_get m0 k = some v := by
  induction R generalizing m0 with
  | nil => right; exact h
  | cons r rest ih =>
    rw [List.foldl_cons] at h
    rcases ih _ h with hl | hr
    · left
      obtain ⟨x, hx, hxx⟩ := hl
      exact ⟨x, List.mem_cons_of_mem _ hx, hxx⟩
    · unfold build_step at hr
      by_cases hcond : r.element ≠ "" ∧ (r.balloon ≠ "" ∨ r.link ≠ "")
      · rw [if_pos hcond] at hr
        by_cases hk : r.element = k
        · left
          exact ⟨r, List.mem_cons_self _ _, hk, hcond.2⟩
        · right
          rw [dict_get_set_ne _ _ _ _ (Ne.symm hk)] at hr
          exact hr
      · rw [if_neg hcond] at hr
        right
        exact hr

theorem merge_element_mem (R : List Record) (L : List String) (r : Record)
    (h : r ∈ merge_file_data R L) : r.element ∈ L := by
  rcases List.mem_append.mp h with h1 | h2
  · exact of_decide_eq_true (List.mem_filter.mp h1).2
  · obtain ⟨e, he, hre⟩ := List.mem_map.mp h2
    have : r.element = e := by rw [← hre]
    rw [this]
    exact (List.mem_filter.mp he).1

theorem merge_covers (R : List Record) (L : List String) (l : String) (h : l ∈ L) :
    l ∈ (merge_file_data R L).map Record.element := by
  unfold merge_file_data
  rw [List.map_append, List.mem_append]
  by_cases hp : l ∈ (merge_kept R L).map Record.element
  · left
    exact hp
  · right
    unfold merge_new
    rw [List.map_map]
    refine List.mem_map.mpr ⟨l, List.mem_filter.mpr ⟨h, decide_eq_true hp⟩, rfl⟩

theorem modify_list_eq_map (m : List (String × String × String)) (l : List XML) :
    modify_list m l = l.map (modify_node m) := by
  induction l with
  | nil => rfl
  | cons c rest ih => rw [modify_list, List.map_cons, ih]

theorem modify_children_eq_map (m : List (String × String × String)) (l : List XML) :
    modify_children m l = l.map (modify_child m) := by
  induction l with
  | nil => rfl
  | cons c rest ih => rw [modify_children, List.map_cons, ih]

theorem modify_node_tag (m : List (String × String × String)) (x : XML) :
    (modify_node m x).tag = x.tag := by
  cases x with
  | elem t a tx tl cs =>
    rw [modify_node]
    rfl

/-- The descent never changes an element's tag, so removing the first
(unqualified) `title` child commutes with the descent: the fused definition
`modify_child` performs exactly the removal the Python code performs before
descending. -/
theorem remove_title_modify_comm (m : List (String × String × String))
    (cs : List XML) :
    remove_first_title (modify_list m cs) = modify_list m (remove_first_title cs) := by
  induction cs with
  | nil => rfl
  | cons c rest ih =>
    rw [modify_list, remove_first_title, remove_first_title, modify_node_tag]
    by_cases h : c.tag = "title"
    · rw [if_pos h, if_pos h]
    · rw [if_neg h, if_neg h, modify_list, ih]

theorem remove_first_title_id (l : List XML) (h : ∀ k ∈ l, k.tag ≠ "title") :
    remove_first_title l = l := by
  induction l with
  | nil => rfl
  | cons c rest ih =>
    rw [remove_first_title, if_neg (h c (List.mem_cons_self _ _)),
      ih (fun k hk => h k (List.mem_cons_of_mem _ hk))]

theorem text_tag_not_group : ¬(svg_text_tag = svg_svg_tag ∨ svg_text_tag = svg_g_tag) := by
  decide

theorem modify_child_balloon_only (m : List (String × String × String))
    (a : List (String × String)) (tl : Option String) (cs : List XML)
    (txt balloon : String) (htxt : txt ≠ "")
    (hlook : dict_get m txt = some (balloon, "")) (hb : balloon ≠ "") :
    modify_child m (.elem svg_text_tag a (some txt) tl cs) =
      .elem svg_text_tag a none tl
        (mk_title balloon (some txt) :: remove_first_title (modify_list m cs)) := by
  simp [modify_child, htxt, hlook, hb]

theorem modify_child_link_only (m : List (String × String × String))
    (a : List (String × String)) (tl : Option String) (cs : List XML)
    (txt link : String) (htxt : txt ≠ "")
    (hlook : dict_get m txt = some ("", link)) (hl : link ≠ "") :
    modify_child m (.elem svg_text_tag a (some txt) tl cs) =
      mk_a_wrap link
        (.elem svg_text_tag a (some txt) tl (remove_first_title (modify_list m cs))) := by
  simp [modify_child, htxt, hlook, hl]

mutual

theorem modify_node_id_no_svg_g (m : List (String × String × String)) :
    (x : XML) → no_svg_g x = true → modify_node m x = x
  | .elem t a tx tl cs, h => by
    rw [no_svg_g, Bool.and_eq_true] at h
    obtain ⟨h1, h3⟩ := h
    have hng : ¬(t = svg_svg_tag ∨ t = svg_g_tag) := by
      simpa using h1
    rw [modify_node, if_neg hng, modify_list_id_no_svg_g m cs h3]

theorem modify_list_id_no_svg_g (m : List (String × String × String)) :
    (l : List XML) → no_svg_g_list l = true → modify_list m l = l
  | [], _ => rfl
  | c :: rest, h => by
    rw [no_svg_g_list, Bool.and_eq_true] at h
    rw [modify_list, modify_node_id_no_svg_g m c h.1,
      modify_list_id_no_svg_g m rest h.2]

end

mutual

theorem modify_node_id_nohit (m : List (String × String × String)) :
    (x : XML) → (∀ e ∈ XML.nodes x, NoHit m e) → modify_node m x = x
  | .elem t a tx tl cs, h => by
    have hcs : ∀ e ∈ nodesList cs, NoHit m e := fun e he =>
      h e (by rw [XML.nodes]; exact List.mem_cons_of_mem _ he)
    by_cases hg : t = svg_svg_tag ∨ t = svg_g_tag
    · rw [modify_node, if_pos hg, modify_children_id_nohit m cs hcs]
    · rw [modify_node, if_neg hg, modify_list_id_nohit m cs hcs]

theorem modify_list_id_nohit (m : List (String × String × String)) :
    (l : List XML) → (∀ e ∈ nodesList l, NoHit m e) → modify_list m l = l
  | [], _ => rfl
  | c :: rest, h => by
    rw [modify_list,
      modify_node_id_nohit m c
        (fun e he => h e (by rw [nodesList]; exact List.mem_append_left _ he)),
      modify_list_id_nohit m rest
        (fun e he => h e (by rw [nodesList]; exact List.mem_append_right _ he))]

theorem modify_children_id_nohit (m : List (String × String × String)) :
    (l : List XML) → (∀ e ∈ nodesList l, NoHit m e) → modify_children m l = l
  | [], _ => rfl
  | c :: rest, h => by
    rw [modify_children,
      modify_child_id_nohit m c
        (fun e he => h e (by rw [nodesList]; exact List.mem_append_left _ he)),
      modify_children_id_nohit m rest
        (fun e he => h e (by rw [nodesList]; exact List.mem_append_right _ he))]

theorem modify_child_id_nohit (m : List (String × String × String)) :
    (x : XML) → (∀ e ∈ XML.nodes x, NoHit m e) → modify_child m x = x
  | .elem t a tx tl cs, h => by
    have hself : NoHit m (.elem t a tx tl cs) :=
      h _ (by rw [XML.nodes]; exact List.mem_cons_self _ _)
    have hcs : ∀ e ∈ nodesList cs, NoHit m e := fun e he =>
      h e (by rw [XML.nodes]; exact List.mem_cons_of_mem _ he)
    have hlist : modify_list m cs = cs := modify_list_id_nohit m cs hcs
    by_cases ht : t = svg_text_tag
    · subst ht
      cases tx with
      | none => simp [modify_child, hlist]
      | some txt =>
        by_cases he : txt = ""
        · subst he
          simp [modify_child, hlist]
        · have hnone : dict_get m txt = none := hself rfl txt rfl he
          simp [modify_child, he, hnone, hlist]
    · by_cases hg : t = svg_svg_tag ∨ t = svg_g_tag
      · have hch : modify_children m cs = cs := modify_children_id_nohit m cs hcs
        simp [modify_child, ht, hg, hch]
      · simp [modify_child, ht, hg, hlist]

end

theorem set_height_spec (root : XML) (v : String) :
    set_height root v =
      .elem root.tag (dict_set root.attrib "height" v) root.text root.tail
        root.children := by
  cases root
  rfl

/-! ## The claims -/

/-- C1: `merge(R, L)` equals the existing records whose element key occurs in
`L`, kept unchanged and in their original order, followed by one new record
`{element: l, balloon: "", link: ""}` for each label `l` of `L` (in `L`'s
order) whose key no kept record carries; records whose key is absent from
`L` are dropped.  In particular, for existing records `[{A,..},{B,..}]` and
labels `[C, A]`, the result is `[{A,..}, {element: C, balloon: "", link: ""}]`. -/
theorem c1_merge_result_order :
    (∀ (R : List Record) (L : List String),
      merge_file_data R L = merge_claim_shape R L) ∧
    ∀ b1 l1 b2 l2 : String,
      merge_file_data [⟨"A", b1, l1⟩, ⟨"B", b2, l2⟩] ["C", "A"] =
        [⟨"A", b1, l1⟩, ⟨"C", "", ""⟩] := by
  constructor
  · intro R L
    unfold merge_file_data merge_claim_shape merge_new
    congr 1
    congr 1
    apply List.filter_congr
    intro e he
    by_cases hmem : e ∈ (merge_kept R L).map Record.element
    · obtain ⟨r, hr, hre⟩ := List.mem_map.mp hmem
      have hall : (merge_kept R L).all (fun row => decide (row.element ≠ e)) = false := by
        rw [List.all_eq_false]
        exact ⟨r, hr, by simp [hre]⟩
      rw [hall, decide_eq_false (by simpa using hmem)]
    · have hall : (merge_kept R L).all (fun row => decide (row.element ≠ e)) = true := by
        rw [List.all_eq_true]
        intro x hx
        exact decide_eq_true (fun hxe => hmem (List.mem_map.mpr ⟨x, hx, hxe⟩))
      rw [hall, decide_eq_true hmem]
  · intro b1 l1 b2 l2
    rfl

/-- C6: the reconciliation is idempotent in its first argument:
`merge(merge(R, L), L) = merge(R, L)`. -/
theorem c6_merge_idempotent (R : List Record) (L : List String) :
    merge_file_data (merge_file_data R L) L = merge_file_data R L := by
  have hkept : merge_kept (merge_file_data R L) L = merge_file_data R L :=
    List.filter_eq_self.mpr
      (fun r hr => decide_eq_true (merge_element_mem R L r hr))
  have hfil :
      L.filter (fun e =>
        decide (e ∉ (merge_file_data R L).map Record.element)) = [] := by
    rw [List.filter_eq_nil_iff]
    intro l hl
    simp [merge_covers R L l hl]
  show merge_kept (merge_file_data R L) L ++ merge_new (merge_file_data R L) L =
    merge_file_data R L
  rw [merge_new, hkept, hfil, List.map_nil, List.append_nil]

/-- C8: loading the annotation table from a path that does not exist returns
the empty record sequence and never aborts (for every filesystem state and
path with the file absent). -/
theorem c8_load_missing (fs : String → TomlFileState) (path : String)
    (h : fs path = TomlFileState.absent) :
    read_toml_data fs path = Except.ok [] := by
  rw [read_toml_data, h]

theorem c8_load_missing_witness :
    read_toml_data (fun _ => TomlFileState.absent) "./example/CVTintin.toml" =
      Except.ok [] :=
  c8_load_missing (fun _ => TomlFileState.absent) "./example/CVTintin.toml" rfl

/-- C10 (implicit): a `{svg}text` element whose direct text is present and
non-empty but trims to the empty string is treated as carrying content: the
extraction appends `""` (the stripped text) to the label list instead of
skipping the element, so the label list — and, through `merge_file_data`,
the annotation table — can contain a record whose element key is `""`. -/
theorem c10_whitespace_label :
    (∀ (root e : XML) (s : String), e ∈ findall_text root → e.text = some s →
      s ≠ "" → pyStrip s = "" → "" ∈ ReadSVG_element_list root) ∧
    ReadSVG_element_list
      (.elem svg_svg_tag [] none none
        [.elem svg_text_tag [] (some " ") none []]) = [""] ∧
    merge_file_data []
      (ReadSVG_element_list
        (.elem svg_svg_tag [] none none
          [.elem svg_text_tag [] (some " ") none []])) =
      [⟨"", "", ""⟩] := by
  refine ⟨?_, by decide, by decide⟩
  intro root e s hmem htext hs htrim
  rw [ReadSVG_element_list]
  refine List.mem_filterMap.mpr ⟨e, hmem, ?_⟩
  rw [htext]
  simp [hs, htrim]

theorem c10_whitespace_label_witness :
    "" ∈ ReadSVG_element_list
      (.elem svg_svg_tag [] none none
        [.elem svg_text_tag [] (some " ") none []]) :=
  c10_whitespace_label.1
    (.elem svg_svg_tag [] none none [.elem svg_text_tag [] (some " ") none []])
    (.elem svg_text_tag [] (some " ") none []) " " (by decide) rfl (by decide)
    (by decide)

/-- C2 (code bug): the spec says the style resolver returns the value of a
`fill:` declaration found in an inline `style` attribute, trimmed, with
style checked before the direct `fill` attribute at each level.  The code
cannot do this: on any level carrying a `style` attribute it executes
`elem.attrib('style')`, which calls the attribute dict and raises
`TypeError` before any matching happens (and the match is then read through
`elem.group(1)` instead of `match.group(1)`, a second slip).  On an SVG
whose first text element carries `style="fill: #ff0000"` the function
aborts instead of returning `"#ff0000"`. -/
theorem c2_style_branch_crashes :
    get_inherited_fill_color
      (.elem svg_svg_tag [] none none
        [.elem svg_text_tag [("style", "fill: #ff0000")] (some "x") none []]) =
      Except.error "TypeError: dict object is not callable" := by
  decide

/-- C5: when no record with a non-empty balloon or link carries the direct
text of any `{svg}text` element of the tree (in particular whenever every
record's balloon and link are both empty), `modify_text_tags` leaves the
tree unchanged, hence its serialization unchanged. -/
theorem c5_no_match_identity (t : XML) (records : List Record)
    (h : ∀ r ∈ records, r.balloon ≠ "" ∨ r.link ≠ "" →
      ¬ is_text_content t r.element) :
    modify_text_tags t records = t := by
  rw [modify_text_tags]
  by_cases he : records.isEmpty
  · rw [if_pos he]
  · rw [if_neg he]
    apply modify_node_id_nohit
    intro e hmem htag s htext hs
    by_cases hd : dict_get (build_text_info_map records) s = none
    · exact hd
    · exfalso
      obtain ⟨v, hv⟩ := Option.ne_none_iff_exists'.mp hd
      rw [build_text_info_map] at hv
      rcases dict_get_foldl_build_some records [] s v hv with ⟨r, hr, hrel, hcond⟩ | habs
      · exact h r hr hcond ⟨e, hmem, htag, by rw [hrel]; exact htext⟩
      · rw [dict_get] at habs
        cases habs

theorem c5_no_match_identity_witness :
    modify_text_tags
      (.elem svg_svg_tag [] none none
        [.elem svg_text_tag [] (some "Hello") none []])
      [⟨"Hello", "", ""⟩] =
      .elem svg_svg_tag [] none none
        [.elem svg_text_tag [] (some "Hello") none []] := by
  apply c5_no_match_identity
  intro r hr hcond
  rw [List.mem_singleton] at hr
  subst hr
  exact absurd hcond (by decide)

/-- C7 counterexample: the traversal is NOT restricted to group containers
reached only through the root and groups.  A `{svg}g` buried under a
`{svg}defs` element still gets its text children rewritten: with a matching
record, the tree below changes, although its only matching text element is
not reachable through root and group containers alone. -/
theorem c7_nested_group_counterexample :
    modify_text_tags
      (.elem svg_svg_tag [] none none
        [.elem "\x7bhttp://www.w3.org/2000/svg\x7ddefs" [] none none
          [.elem svg_g_tag [] none none
            [.elem svg_text_tag [] (some "Hello") none []]]])
      [⟨"Hello", "Tip", ""⟩] ≠
      .elem svg_svg_tag [] none none
        [.elem "\x7bhttp://www.w3.org/2000/svg\x7ddefs" [] none none
          [.elem svg_g_tag [] none none
            [.elem svg_text_tag [] (some "Hello") none []]]] := by
  decide

/-- C7 (amended): the rewriting applies to the direct `{svg}text` children
of every `{svg}svg`- or `{svg}g`-tagged element anywhere in the tree,
regardless of the containers on the path to it (see the counterexample);
what holds is the per-level scope limit: under a parent of any other tag, a
direct text child is never rewritten — it keeps its tag (it is not replaced
by a hyperlink wrapper), its attributes, its direct text (no tooltip is
inserted and the text is not cleared) and its tail, even when its text
matches an annotation record; the traversal merely descends into it.
`modify_node` is the traversal applied at every subtree, so this covers
parents at any depth. -/
theorem c7_non_group_frame (m : List (String × String × String)) (p : XML)
    (i : Nat) (c : XML) (hp1 : p.tag ≠ svg_svg_tag) (hp2 : p.tag ≠ svg_g_tag)
    (hc : p.children[i]? = some c) (htag : c.tag = svg_text_tag) :
    ∃ c2, (modify_node m p).children[i]? = some c2 ∧ c2.tag = c.tag ∧
      c2.attrib = c.attrib ∧ c2.text = c.text ∧ c2.tail = c.tail ∧
      c2.children = modify_list m c.children := by
  obtain ⟨t, a, tx, tl, cs⟩ := p
  rw [XML.tag] at hp1 hp2
  rw [XML.children] at hc
  rw [modify_node, if_neg (by tauto), XML.children, modify_list_eq_map,
    List.getElem?_map, hc, Option.map_some']
  obtain ⟨t2, a2, tx2, tl2, cs2⟩ := c
  rw [XML.tag] at htag
  subst htag
  rw [modify_node, if_neg text_tag_not_group]
  exact ⟨_, rfl, rfl, rfl, rfl, rfl, rfl⟩

theorem c7_non_group_frame_witness :
    ∃ c2,
      (modify_node (build_text_info_map [⟨"Hello", "Tip", ""⟩])
          (.elem "\x7bhttp://www.w3.org/2000/svg\x7ddefs" [] none none
            [.elem svg_text_tag [] (some "Hello") none []])).children[0]? =
        some c2 ∧
      c2.tag = svg_text_tag ∧ c2.attrib = [] ∧ c2.text = some "Hello" ∧
      c2.tail = none ∧ c2.children = modify_list (build_text_info_map [⟨"Hello", "Tip", ""⟩]) [] := by
  obtain ⟨c2, h1, h2, h3, h4, h5, h6⟩ :=
    c7_non_group_frame (build_text_info_map [⟨"Hello", "Tip", ""⟩])
      (.elem "\x7bhttp://www.w3.org/2000/svg\x7ddefs" [] none none
        [.elem svg_text_tag [] (some "Hello") none []])
      0 (.elem svg_text_tag [] (some "Hello") none []) (by decide) (by decide)
      rfl rfl
  exact ⟨c2, h1, h2, h3, h4, h5, h6⟩

/-- C3: in every tree whose root (or group container, quantified as the
parent's tag) has a direct `{svg}text` child with direct text `"Hello"`, and
for every record list whose `"Hello"`-keyed record is
`{element: "Hello", balloon: "Tip", link: ""}` (`element` is the record
identity key; a second record with the same key would overwrite this one in
the lookup map), the rewriting leaves at the child's position a text element
(no hyperlink wrapper) whose direct text is cleared and whose first child is
a tooltip element with direct text `"Tip"` and tail text `"Hello"`. -/
theorem c3_tooltip_only (root : XML) (records : List Record) (i : Nat) (c : XML)
    (hroot : root.tag = svg_svg_tag ∨ root.tag = svg_g_tag)
    (hmem : (⟨"Hello", "Tip", ""⟩ : Record) ∈ records)
    (huniq : ∀ r ∈ records, r.element = "Hello" → r = ⟨"Hello", "Tip", ""⟩)
    (hc : root.children[i]? = some c)
    (htag : c.tag = svg_text_tag) (htext : c.text = some "Hello") :
    ∃ c2, (modify_text_tags root records).children[i]? = some c2 ∧
      c2.tag = svg_text_tag ∧ c2.text = none ∧
      c2.children.head? = some (.elem "title" [] (some "Tip") (some "Hello") []) := by
  have hne : ¬records.isEmpty = true := by
    cases records with
    | nil => cases hmem
    | cons r rest => simp [List.isEmpty]
  have hlook : dict_get (build_text_info_map records) "Hello" = some ("Tip", "") :=
    dict_get_build_unique records ⟨"Hello", "Tip", ""⟩ hmem (by decide) huniq
  rw [modify_text_tags, if_neg hne]
  obtain ⟨t, a, tx, tl, cs⟩ := root
  rw [XML.tag] at hroot
  rw [XML.children] at hc
  rw [modify_node, if_pos hroot, XML.children, modify_children_eq_map,
    List.getElem?_map, hc, Option.map_some']
  obtain ⟨t2, a2, tx2, tl2, cs2⟩ := c
  rw [XML.tag] at htag
  rw [XML.text] at htext
  subst htag
  subst htext
  rw [modify_child_balloon_only _ _ _ _ _ _ (by decide) hlook (by decide)]
  exact ⟨_, rfl, rfl, rfl, rfl⟩

theorem c3_tooltip_only_witness :
    ∃ c2,
      (modify_text_tags
          (.elem svg_svg_tag [] none none
            [.elem svg_text_tag [] (some "Hello") none []])
          [⟨"Hello", "Tip", ""⟩]).children[0]? = some c2 ∧
      c2.tag = svg_text_tag ∧ c2.text = none ∧
      c2.children.head? = some (.elem "title" [] (some "Tip") (some "Hello") []) :=
  c3_tooltip_only
    (.elem svg_svg_tag [] none none [.elem svg_text_tag [] (some "Hello") none []])
    [⟨"Hello", "Tip", ""⟩] 0 (.elem svg_text_tag [] (some "Hello") none [])
    (by decide) (by decide) (by decide) rfl rfl rfl

/-- C4 counterexample: the hyperlink wrapper's only child is NOT always the
original text-container node.  When the text node carries a pre-existing
(unqualified) `title` child, lines 248-251 remove that child before the node
is wrapped, so the wrapped node differs from the original: at index 0 the
wrapper's child list is not `[the original node]`. -/
theorem c4_wrap_strips_title_counterexample :
    (((modify_text_tags
        (.elem svg_svg_tag [] none none
          [.elem svg_text_tag [] (some "World") none
            [.elem "title" [] (some "old") none []]])
        [⟨"World", "", "https://x"⟩]).children[0]?).map XML.children) ≠
      some [.elem svg_text_tag [] (some "World") none
        [.elem "title" [] (some "old") none []]] := by
  decide

/-- C4 (amended): in every tree whose root (or group container) has a direct
`{svg}text` child with direct text `"World"` at sibling index `i`, and for
every record list whose `"World"`-keyed record is
`{element: "World", balloon: "", link: "https://x"}`, the rewriting replaces
the child, at the same sibling index `i` of the same parent, by a new
hyperlink element carrying the namespaced href attribute `"https://x"` and
`target="_blank"` whose only child is the original text-container node —
provided the node carries no direct unqualified `title` child (such a child
would first be removed, see the counterexample) and no `{svg}svg`/`{svg}g`
descendants (which the traversal would itself rewrite inside the wrapper). -/
theorem c4_link_only_wrap (root : XML) (records : List Record) (i : Nat) (c : XML)
    (hroot : root.tag = svg_svg_tag ∨ root.tag = svg_g_tag)
    (hmem : (⟨"World", "", "https://x"⟩ : Record) ∈ records)
    (huniq : ∀ r ∈ records, r.element = "World" → r = ⟨"World", "", "https://x"⟩)
    (hc : root.children[i]? = some c)
    (htag : c.tag = svg_text_tag) (htext : c.text = some "World")
    (hnotitle : ∀ k ∈ c.children, k.tag ≠ "title")
    (hplain : no_svg_g_list c.children = true) :
    (modify_text_tags root records).children[i]? =
      some (.elem "a" [(xlink_href_attr, "https://x"), ("target", "_blank")]
        none none [c]) := by
  have hne : ¬records.isEmpty = true := by
    cases records with
    | nil => cases hmem
    | cons r rest => simp [List.isEmpty]
  have hlook : dict_get (build_text_info_map records) "World" = some ("", "https://x") :=
    dict_get_build_unique records ⟨"World", "", "https://x"⟩ hmem (by decide) huniq
  rw [modify_text_tags, if_neg hne]
  obtain ⟨t, a, tx, tl, cs⟩ := root
  rw [XML.tag] at hroot
  rw [XML.children] at hc
  rw [modify_node, if_pos hroot, XML.children, modify_children_eq_map,
    List.getElem?_map, hc, Option.map_some']
  obtain ⟨t2, a2, tx2, tl2, cs2⟩ := c
  rw [XML.tag] at htag
  rw [XML.text] at htext
  rw [XML.children] at hnotitle hplain
  subst htag
  subst htext
  rw [modify_child_link_only _ _ _ _ _ _ (by decide) hlook (by decide),
    modify_list_id_no_svg_g _ cs2 hplain, remove_first_title_id cs2 hnotitle]
  rfl

theorem c4_link_only_wrap_witness :
    (modify_text_tags
        (.elem svg_svg_tag [] none none
          [.elem svg_text_tag [] (some "World") none []])
        [⟨"World", "", "https://x"⟩]).children[0]? =
      some (.elem "a" [(xlink_href_attr, "https://x"), ("target", "_blank")]
        none none [.elem svg_text_tag [] (some "World") none []]) :=
  c4_link_only_wrap
    (.elem svg_svg_tag [] none none [.elem svg_text_tag [] (some "World") none []])
    [⟨"World", "", "https://x"⟩] 0 (.elem svg_text_tag [] (some "World") none [])
    (by decide) (by decide) (by decide) rfl rfl rfl (by decide) (by decide)

/-- C9: for a tree whose declared height attribute parses to `h0` (400 in
the claim's instance) and whose colour resolution succeeds, appending the
caption with `n` lines, font size `fs` and offset `(ox, oy)` sets the height
attribute to `h0 + n*(fs*1.2) + oy` (for the claim's instance
`400 + 1*14.4 + 20 = 434.4`, printed `"434.4"`), changes no other root
attribute (in particular not the width), and positions the first caption
line at `y = newHeight - oy - n*(fs*1.2)` (here `434.4 - 20 - 14.4 = 400`).
The arithmetic facts are stated over `ℚ` through `tenthsToRat`. -/
theorem c9_caption_layout (root : XML) (lines : List String) (ox oy fs h0 : Int)
    (link : Option (String × String)) (fill : String)
    (hh : pyInt ((xml_get root "height").getD "400") = some h0)
    (hfill : get_inherited_fill_color
        (set_height root
          (tenthsStr (caption_new_height h0 (caption_num_lines lines link) fs oy))) =
      Except.ok fill) :
    ∃ t2, add_explanation_text root lines (ox, oy) fs link = .ok t2 ∧
      xml_get t2 "height" =
        some (tenthsStr (caption_new_height h0 (caption_num_lines lines link) fs oy)) ∧
      (∀ k, k ≠ "height" → xml_get t2 k = xml_get root k) ∧
      (∃ cap, t2.children[root.children.length]? = some cap ∧
        cap.tag = svg_text_tag ∧
        xml_get cap "y" =
          some (tenthsStr (caption_y_firstline h0 (caption_num_lines lines link) fs oy))) ∧
      tenthsToRat (caption_new_height h0 (caption_num_lines lines link) fs oy) =
        (h0 : ℚ) + (caption_num_lines lines link : ℚ) * ((fs : ℚ) * (6 / 5)) + (oy : ℚ) ∧
      tenthsToRat (caption_y_firstline h0 (caption_num_lines lines link) fs oy) =
        tenthsToRat (caption_new_height h0 (caption_num_lines lines link) fs oy) -
          (oy : ℚ) - (caption_num_lines lines link : ℚ) * ((fs : ℚ) * (6 / 5)) ∧
      tenthsStr (caption_new_height 400 1 12 20) = "434.4" ∧
      tenthsToRat (caption_y_firstline 400 1 12 20) = 400 := by
  have harith1 : tenthsToRat (caption_new_height h0 (caption_num_lines lines link) fs oy) =
      (h0 : ℚ) + (caption_num_lines lines link : ℚ) * ((fs : ℚ) * (6 / 5)) + (oy : ℚ) := by
    rw [tenthsToRat, caption_new_height, line_spacing_tenths, text_height_em_tenths]
    push_cast
    ring
  have harith2 : tenthsToRat (caption_y_firstline h0 (caption_num_lines lines link) fs oy) =
      tenthsToRat (caption_new_height h0 (caption_num_lines lines link) fs oy) -
        (oy : ℚ) - (caption_num_lines lines link : ℚ) * ((fs : ℚ) * (6 / 5)) := by
    rw [tenthsToRat, tenthsToRat, caption_y_firstline, line_spacing_tenths,
      text_height_em_tenths]
    push_cast
    ring
  have hconc1 : tenthsStr (caption_new_height 400 1 12 20) = "434.4" := by decide
  have hconc2 : tenthsToRat (caption_y_firstline 400 1 12 20) = 400 := by
    have h4 : caption_y_firstline 400 1 12 20 = 4000 := by decide
    rw [h4, tenthsToRat]
    norm_num
  cases link with
  | none =>
    rw [set_height_spec] at hfill
    simp only [add_explanation_text, hh, set_height_spec]
    rw [hfill]
    refine ⟨_, rfl, ?_, ?_, ?_, harith1, harith2, hconc1, hconc2⟩
    · simp [xml_get, XML.attrib, dict_get_set_self]
    · intro k hk
      simp [xml_get, XML.attrib, dict_get_set_ne _ _ _ _ hk]
    · exact ⟨XML.elem svg_text_tag
          [("x", toString ox),
           ("y", tenthsStr (caption_y_firstline h0 (caption_num_lines lines none) fs oy)),
           ("font-size", toString fs), ("fill", fill),
           ("font-family", "Arial, sans-serif"), ("stroke", "none"),
           ("stroke-width", "0")] none none (caption_tspans (toString ox) 0 lines),
        by simp only [XML.children]; exact List.getElem?_concat_length _ _,
        rfl,
        by simp [xml_get, XML.attrib, dict_get]⟩
  | some pr =>
    obtain ⟨url, disp⟩ := pr
    rw [set_height_spec] at hfill
    simp only [add_explanation_text, hh, set_height_spec]
    rw [hfill]
    refine ⟨_, rfl, ?_, ?_, ?_, harith1, harith2, hconc1, hconc2⟩
    · simp [xml_get, XML.attrib, dict_get_set_self]
    · intro k hk
      simp [xml_get, XML.attrib, dict_get_set_ne _ _ _ _ hk]
    · exact ⟨XML.elem svg_text_tag
          [("x", toString ox),
           ("y", tenthsStr
              (caption_y_firstline h0 (caption_num_lines lines (some (url, disp))) fs oy)),
           ("font-size", toString fs), ("fill", fill),
           ("font-family", "Arial, sans-serif"), ("stroke", "none"),
           ("stroke-width", "0")] none none (caption_tspans (toString ox) 0 lines),
        by
          simp only [XML.children]
          rw [List.getElem?_append_left (by simp), List.getElem?_concat_length],
        rfl,
        by simp [xml_get, XML.attrib, dict_get]⟩

theorem c9_caption_layout_witness :
    ∃ t2, add_explanation_text (.elem svg_svg_tag [("height", "400")] none none [])
        ["hi"] (20, 20) 12 none = .ok t2 ∧
      xml_get t2 "height" = some "434.4" ∧
      xml_get t2 "width" = xml_get (.elem svg_svg_tag [("height", "400")] none none []) "width" := by
  obtain ⟨t2, h1, h2, h3, _⟩ :=
    c9_caption_layout (.elem svg_svg_tag [("height", "400")] none none [])
      ["hi"] 20 20 12 400 none "#000000" (by decide) (by decide)
  refine ⟨t2, h1, ?_, h3 "width" (by decide)⟩
  rw [h2]
  rfl
